import Mathlib

/-!
Verification development for the log2json parser package.

The Go sources of the `parser` package (entry/registry types, the JSON,
key-value, syslog, Apache-combined, generic and user-pattern recognizers,
and the type-inference helper) are embedded shallowly below: each Go
function becomes an executable Lean definition that mirrors the source
line by line, with machine integers as `Int` plus explicit range checks,
Go's `map[string]any` as an association list with insert-or-replace
update, Go regular expressions as an explicit backtracking matcher over a
regex syntax tree (leftmost, Perl-priority semantics, as in Go's regexp
package for FindStringSubmatch), and Go's `(value, error)` returns as
explicit pairs with an `Option` error component.

Abstractions recorded where taken: `float64` values are carried as the
lexical token they were parsed from (IEEE-754 arithmetic is not
modelled); `strings.TrimSpace`/`ToLower` are modelled on ASCII, which
covers every input considered here; the text of dynamic Go error
messages is not modelled beyond the registry's `unknown format` string.
-/

set_option maxHeartbeats 4000000

namespace Log2Json

/-- Go values stored in an Entry's `Fields` map (`map[string]any` in the
source).  Go's `int` (from `strconv.Atoi`) and `int64` (from
`strconv.ParseInt`) are distinct dynamic types of `any`, so they get
distinct constructors.  A `float64` is represented by the lexical token it
was parsed from; the constructors `vNull`, `vArr`, `vObj` cover the values
`encoding/json` can place in a `map[string]any`. -/
inductive GVal where
  | vInt (i : Int)
  | vInt64 (i : Int)
  | vFloat (tok : String)
  | vBool (b : Bool)
  | vStr (s : String)
  | vNull
  | vArr (xs : List GVal)
  | vObj (kvs : List (String × GVal))
deriving Repr

/-- The Go map `map[string]any`, as an association list with unique keys
maintained by `insertF`. -/
abbrev Fields := List (String × GVal)

/-- Map update `m[k] = v` of a Go map: replaces the value at an existing
key, otherwise appends the new binding. -/
def insertF : Fields → String → GVal → Fields
  | [], k, v => [(k, v)]
  | (k', v') :: rest, k, v =>
    if k' = k then (k, v) :: rest else (k', v') :: insertF rest k v

/-- Map read `m[k]` of a Go map, `none` when the key is absent. -/
def lookupF : Fields → String → Option GVal
  | [], _ => none
  | (k', v') :: rest, k => if k' = k then some v' else lookupF rest k

/-- The sentinel errors of the parser package (`ErrNoMatch`,
`ErrEmptyLine`, `ErrInvalidData` from the errors file) plus the dynamic
error produced by `json.Unmarshal`, which is the only other error value a
recognizer ever stores in `Entry.ParseError`. -/
inductive PErr where
  | errNoMatch
  | errEmptyLine
  | errInvalidData
  | errJSONDecode
deriving Repr, DecidableEq

/-- The `Entry` struct: extracted fields, the raw line, the 1-based line
number (set by the caller, zero-valued at creation), and the parse
error. -/
structure Entry where
  fields : Fields
  raw : String
  lineNum : Int := 0
  parseError : Option PErr := none
deriving Repr

/-- `NewEntry` from the source: fresh entry with an initialized empty
fields map and the raw line retained. -/
def NewEntry (raw : String) : Entry := { fields := [], raw := raw }

/-- Whitespace in the sense of Go's `unicode.IsSpace` restricted to
ASCII: space, tab, newline, vertical tab, form feed, carriage return. -/
def goIsSpace (c : Char) : Bool :=
  c == ' ' || c == '\t' || c == '\n' || c == '\x0b' || c == '\x0c' || c == '\r'

/-- Build a string back from an explicit character list. -/
def strOf (cs : List Char) : String := String.mk cs

/-- Go `strings.TrimSpace` (ASCII whitespace). -/
def goTrimSpace (s : String) : String :=
  strOf (((s.toList.dropWhile goIsSpace).reverse.dropWhile goIsSpace).reverse)

/-- Go `strings.ToLower` (ASCII letters suffice for the names used
here). -/
def goToLower (s : String) : String := strOf (s.toList.map Char.toLower)

/-- Value of one decimal digit character. -/
def digitVal (c : Char) : Option Nat :=
  if c.isDigit then some (c.toNat - '0'.toNat) else none

/-- Reads a nonempty run of decimal digits as a natural number; `none` on
an empty list or any non-digit. -/
def digitsToNat (cs : List Char) : Option Nat :=
  match cs with
  | [] => none
  | _ =>
    cs.foldl (fun acc c => acc.bind fun n => (digitVal c).map fun d => n * 10 + d)
      (some 0)

/-- Go `strconv.ParseInt(s, 10, 64)`: optional single sign, then a
nonempty run of decimal digits (no underscores, since the base is given
explicitly), with the result required to fit a signed 64-bit integer;
`none` models a non-nil error (syntax or range). -/
def goParseInt64 (s : String) : Option Int :=
  let cs := s.toList
  let signAndDigits : Bool × List Char :=
    match cs with
    | '+' :: t => (false, t)
    | '-' :: t => (true, t)
    | t => (false, t)
  match digitsToNat signAndDigits.2 with
  | none => none
  | some n =>
    let v : Int := if signAndDigits.1 then -(n : Int) else (n : Int)
    if -(2 ^ 63) ≤ v ∧ v ≤ 2 ^ 63 - 1 then some v else none

/-- Go `strconv.Atoi`, i.e. `ParseInt(s, 10, 0)` with the platform `int`
being 64 bits wide. -/
def goAtoi (s : String) : Option Int := goParseInt64 s

/-- Decides whether a nonempty character run consists of `p`-digits with
underscores permitted only strictly between two digits (the Go literal
underscore rule, applied per digit run). -/
def digitRunU (p : Char → Bool) : List Char → Bool
  | [] => false
  | [c] => p c
  | c :: '_' :: rest => p c && digitRunU p rest
  | c :: rest => p c && digitRunU p rest

/-- Splits a character list at the first occurrence of `c`; returns the
part before it and, when found, the part after it. -/
def splitAtChar (c : Char) : List Char → List Char × Option (List Char)
  | [] => ([], none)
  | c' :: rest =>
    if c' == c then ([], some rest)
    else
      let r := splitAtChar c rest
      (c' :: r.1, r.2)

/-- Mantissa acceptor shared by the decimal and hexadecimal forms of a Go
float literal: `digits`, `digits.digits`, `digits.`, or `.digits`, with
at least one digit overall and underscores only between digits. -/
def mantissaOk (p : Char → Bool) (cs : List Char) : Bool :=
  let ⟨ipart, fpart?⟩ := splitAtChar '.' cs
  match fpart? with
  | none => digitRunU p ipart
  | some fpart =>
    match ipart, fpart with
    | [], [] => false
    | [], f => digitRunU p f
    | i, [] => digitRunU p i
    | i, f => digitRunU p i && digitRunU p f

/-- Exponent acceptor: optional sign then a nonempty decimal digit
run. -/
def exponentOk (cs : List Char) : Bool :=
  match cs with
  | '+' :: t => digitRunU Char.isDigit t
  | '-' :: t => digitRunU Char.isDigit t
  | t => digitRunU Char.isDigit t

/-- Hexadecimal digit test on already-lowercased input. -/
def isHexDig (c : Char) : Bool := c.isDigit || ('a' ≤ c && c ≤ 'f')

/-- Syntax accepted by Go `strconv.ParseFloat(s, 64)`: an optional sign,
then either `inf`/`infinity`/`nan` (any case), a hexadecimal float
(`0x` mantissa with a mandatory `p` exponent), or a decimal float
(mantissa with optional `e` exponent).  Only acceptance is modelled; the
IEEE-754 result value is not. -/
def goParseFloatOk (s : String) : Bool :=
  let cs := s.toList.map Char.toLower
  let body :=
    match cs with
    | '+' :: t => t
    | '-' :: t => t
    | t => t
  match body with
  | ['i', 'n', 'f'] => true
  | ['i', 'n', 'f', 'i', 'n', 'i', 't', 'y'] => true
  | ['n', 'a', 'n'] => true
  | '0' :: 'x' :: rest =>
    let ⟨mant, expo?⟩ := splitAtChar 'p' rest
    match expo? with
    | none => false
    | some ex => mantissaOk isHexDig mant && exponentOk ex
  | rest =>
    let ⟨mant, expo?⟩ := splitAtChar 'e' rest
    match expo? with
    | none => mantissaOk Char.isDigit mant
    | some ex => mantissaOk Char.isDigit mant && exponentOk ex

/-- The `inferType` helper: try a signed 64-bit integer, then a 64-bit
float, then a case-insensitive boolean, else keep the string. -/
def inferType (s : String) : GVal :=
  match goParseInt64 s with
  | some i => GVal.vInt64 i
  | none =>
    if goParseFloatOk s then GVal.vFloat s
    else
      let lower := goToLower s
      if lower = "true" then GVal.vBool true
      else if lower = "false" then GVal.vBool false
      else GVal.vStr s

/-- Syntax tree for the regular expressions compiled by the recognizers
(`regexp.MustCompile` / `regexp.Compile` in the source).  Character
classes, including `.`, `\w`, `\d`, `\s`, `\S` and bracket expressions,
are represented by their character predicate; `bol`/`eol` are the `^`/`$`
anchors (Go semantics without `(?m)`: beginning and end of the whole
text); `group` is a numbered capturing group. -/
inductive GRegex where
  | eps
  | bol
  | eol
  | cls (p : Char → Bool)
  | cat (r1 r2 : GRegex)
  | alt (r1 r2 : GRegex)
  | star (r : GRegex)
  | group (idx : Nat) (r : GRegex)

/-- Structural size of a regex, used as the termination measure of the
matcher. -/
def rsize : GRegex → Nat
  | .eps | .bol | .eol | .cls _ => 1
  | .cat a b => 1 + rsize a + rsize b
  | .alt a b => 1 + rsize a + rsize b
  | .star r => 2 + rsize r
  | .group _ r => 1 + rsize r

/-- Backtracking matcher.  `mt L fuel r s g` returns every way `r` can
match a prefix of `s`, each as (updated capture slots, remaining suffix),
in Perl/Go priority order: alternation prefers its left branch and a star
is greedy, and an iteration of a star that consumes nothing is cut, as in
Go's regexp engine, which never repeats an empty match.  `L` is the
length of the whole subject text, so `^` holds exactly when `s` is still
the whole text; `g` carries the capture slots accumulated so far.  The
fuel only makes the recursion structural: every recursive call either
descends one regex constructor or re-enters a star after consuming at
least one character, so the recursion depth never exceeds
`(rsize r + 1) * (s.length + 1) + rsize r`, and the fuel callers pass
(`mtFuel`) strictly exceeds that bound — it never changes the result. -/
def mt (L : Nat) : Nat → GRegex → List Char → List String →
    List (List String × List Char)
  | 0, _, _, _ => []
  | fuel + 1, r, s, g =>
    match r with
    | .eps => [(g, s)]
    | .bol => if s.length = L then [(g, s)] else []
    | .eol => if s = [] then [(g, s)] else []
    | .cls p =>
      match s with
      | [] => []
      | c :: rest => if p c then [(g, rest)] else []
    | .cat r1 r2 =>
      (mt L fuel r1 s g).flatMap fun res => mt L fuel r2 res.2 res.1
    | .alt r1 r2 => mt L fuel r1 s g ++ mt L fuel r2 s g
    | .star r1 =>
      ((mt L fuel r1 s g).flatMap fun res =>
        if res.2.length < s.length then mt L fuel (.star r1) res.2 res.1
        else []) ++ [(g, s)]
    | .group i r1 =>
      (mt L fuel r1 s g).map fun res =>
        (res.1.set i (strOf (s.take (s.length - res.2.length))), res.2)

/-- Ample fuel for `mt` on a subject of length `len` (see the depth bound
in the doc of `mt`). -/
def mtFuel (r : GRegex) (len : Nat) : Nat := (rsize r + 2) * (len + 2) + 4

/-- Leftmost match search from the current suffix `t` of the subject:
try a match here, else retry one character further right (the semantics
of Go's `FindStringSubmatch`).  On success returns the capture slots
(slot 0 set to the whole matched text), the suffix after the match, and
the match length. -/
def gfindFrom (L : Nat) (r : GRegex) (ncap : Nat) (t : List Char) :
    Option (List String × List Char × Nat) :=
  match (mt L (mtFuel r t.length) r t (List.replicate (ncap + 1) "")).head? with
  | some res =>
    let mlen := t.length - res.2.length
    some (res.1.set 0 (strOf (t.take mlen)), res.2, mlen)
  | none =>
    match t with
    | [] => none
    | _ :: t' => gfindFrom L r ncap t'

/-- Go `re.FindStringSubmatch(s)`: the capture-slot list of the leftmost
match (a non-participating group keeps the empty string, as in Go), or
`none` when the pattern does not match anywhere. -/
def gfind (r : GRegex) (ncap : Nat) (s : String) : Option (List String) :=
  let cs := s.toList
  (gfindFrom cs.length r ncap cs).map (·.1)

/-- Go `re.MatchString(s)`. -/
def gmatches (r : GRegex) (ncap : Nat) (s : String) : Bool :=
  (gfind r ncap s).isSome

/-- Worker for `gfindAll`: collect successive non-overlapping leftmost
matches, advancing one character past an empty match as Go does.  The
fuel only bounds the iteration count; callers pass enough for every
match, since each round either consumes part of the subject or ends. -/
def gfindAllAux (L : Nat) (r : GRegex) (ncap : Nat) :
    Nat → List Char → List (List String)
  | 0, _ => []
  | fuel + 1, t =>
    match gfindFrom L r ncap t with
    | none => []
    | some (caps, rest, mlen) =>
      if mlen = 0 then
        match rest with
        | [] => [caps]
        | _ :: rest' => caps :: gfindAllAux L r ncap fuel rest'
      else caps :: gfindAllAux L r ncap fuel rest

/-- Go `re.FindAllStringSubmatch(s, -1)` (and, by taking the length,
`re.FindAllString(s, -1)`). -/
def gfindAll (r : GRegex) (ncap : Nat) (s : String) : List (List String) :=
  let cs := s.toList
  gfindAllAux cs.length r ncap (cs.length + 1) cs

/-- Literal character. -/
def rchar (c : Char) : GRegex := .cls (fun c' => c' == c)

/-- The `.` metacharacter: any character but newline. -/
def rdot : GRegex := .cls (fun c => c != '\n')

/-- Literal string. -/
def rlit (s : String) : GRegex := s.toList.foldr (fun c r => .cat (rchar c) r) .eps

/-- Greedy `?`. -/
def ropt (r : GRegex) : GRegex := .alt r .eps

/-- Greedy `+`. -/
def rplus (r : GRegex) : GRegex := .cat r (.star r)

/-- Concatenation of a sequence of regexes. -/
def rcats (rs : List GRegex) : GRegex := rs.foldr .cat .eps

/-- Exact repetition `r{n}`. -/
def rrep (r : GRegex) : Nat → GRegex
  | 0 => .eps
  | n + 1 => .cat r (rrep r n)

/-- Whitespace class of Go's `\s`: `[\t\n\f\r ]`. -/
def goPerlSpace (c : Char) : Bool :=
  c == ' ' || c == '\t' || c == '\n' || c == '\x0c' || c == '\r'

/-- Go `\w`: `[0-9A-Za-z_]`. -/
def rw : GRegex := .cls (fun c => c.isAlpha || c.isDigit || c == '_')

/-- Go `\d`. -/
def rd : GRegex := .cls Char.isDigit

/-- Go `\s`. -/
def rsp : GRegex := .cls goPerlSpace

/-- Go `\S`. -/
def rnotSp : GRegex := .cls (fun c => !goPerlSpace c)

/-- The single-quote character, written by code point to keep the source
free of quote-escape noise. -/
def sq : Char := Char.ofNat 39

/-- Sign class `[+-]`. -/
def rsign : GRegex := .cls (fun c => c == '+' || c == '-')

/-- The syslog timestamp alternation:
`(?:\w{3}\s+\d{1,2}\s+\d{2}:\d{2}:\d{2})|(?:\d{4}-\d{2}-\d{2}T\d{2}:\d{2}:\d{2}(?:\.\d+)?(?:Z|[+-]\d{2}:\d{2})?)`. -/
def syslogTimestamp : GRegex :=
  .alt
    (rcats [rrep rw 3, rplus rsp, .cat rd (ropt rd), rplus rsp,
      rrep rd 2, rchar ':', rrep rd 2, rchar ':', rrep rd 2])
    (rcats [rrep rd 4, rchar '-', rrep rd 2, rchar '-', rrep rd 2, rchar 'T',
      rrep rd 2, rchar ':', rrep rd 2, rchar ':', rrep rd 2,
      ropt (.cat (rchar '.') (rplus rd)),
      ropt (.alt (rchar 'Z')
        (rcats [rsign, rrep rd 2, rchar ':', rrep rd 2]))])

/-- The `SyslogParser` pattern:
`^(?P<timestamp>…)\s+(?P<host>\S+)\s+(?P<program>[^\s\[:]+)(?:\[(?P<pid>\d+)\])?:\s*(?P<message>.*)$`. -/
def syslogPattern : GRegex :=
  rcats [.bol,
    .group 1 syslogTimestamp, rplus rsp,
    .group 2 (rplus rnotSp), rplus rsp,
    .group 3 (rplus (.cls (fun c => !goPerlSpace c && c != '[' && c != ':'))),
    ropt (rcats [rchar '[', .group 4 (rplus rd), rchar ']']),
    rchar ':', .star rsp,
    .group 5 (.star rdot), .eol]

/-- `SubexpNames()` of the syslog pattern. -/
def syslogNames : List String := ["", "timestamp", "host", "program", "pid", "message"]

/-- The `ApacheParser` combined-log pattern:
`^(?P<ip>\S+)\s+(?P<ident>\S+)\s+(?P<user>\S+)\s+\[(?P<timestamp>[^\]]+)\]\s+"(?P<method>\S+)\s+(?P<path>\S+)\s+(?P<protocol>[^"]+)"\s+(?P<status>\d+)\s+(?P<size>\S+)(?:\s+"(?P<referer>[^"]*)"\s+"(?P<useragent>[^"]*)")?`. -/
def apachePattern : GRegex :=
  rcats [.bol,
    .group 1 (rplus rnotSp), rplus rsp,
    .group 2 (rplus rnotSp), rplus rsp,
    .group 3 (rplus rnotSp), rplus rsp,
    rchar '[', .group 4 (rplus (.cls (fun c => c != ']'))), rchar ']', rplus rsp,
    rchar '"', .group 5 (rplus rnotSp), rplus rsp, .group 6 (rplus rnotSp),
    rplus rsp, .group 7 (rplus (.cls (fun c => c != '"'))), rchar '"', rplus rsp,
    .group 8 (rplus rd), rplus rsp,
    .group 9 (rplus rnotSp),
    ropt (rcats [rplus rsp,
      rchar '"', .group 10 (.star (.cls (fun c => c != '"'))), rchar '"',
      rplus rsp,
      rchar '"', .group 11 (.star (.cls (fun c => c != '"'))), rchar '"'])]

/-- `SubexpNames()` of the Apache pattern. -/
def apacheNames : List String :=
  ["", "ip", "ident", "user", "timestamp", "method", "path", "protocol",
    "status", "size", "referer", "useragent"]

/-- The level alternation of the generic pattern set:
`DEBUG|INFO|WARN(?:ING)?|ERROR|FATAL|TRACE`. -/
def rlevel : GRegex :=
  .alt (rlit "DEBUG")
    (.alt (rlit "INFO")
      (.alt (.cat (rlit "WARN") (ropt (rlit "ING")))
        (.alt (rlit "ERROR")
          (.alt (rlit "FATAL") (rlit "TRACE")))))

/-- ISO-ish timestamp of the generic patterns without zone suffix:
`\d{4}-\d{2}-\d{2}[T\s]\d{2}:\d{2}:\d{2}(?:\.\d+)?`. -/
def genericTsBase : GRegex :=
  rcats [rrep rd 4, rchar '-', rrep rd 2, rchar '-', rrep rd 2,
    .cls (fun c => c == 'T' || goPerlSpace c),
    rrep rd 2, rchar ':', rrep rd 2, rchar ':', rrep rd 2,
    ropt (.cat (rchar '.') (rplus rd))]

/-- Timestamp of the first generic pattern, with the optional zone:
`…(?:Z|[+-]\d{2}:?\d{2})?`. -/
def genericTsZone : GRegex :=
  .cat genericTsBase
    (ropt (.alt (rchar 'Z')
      (rcats [rsign, rrep rd 2, ropt (rchar ':'), rrep rd 2])))

/-- The four ordered heuristics of `NewGenericParser`, each with its
`SubexpNames()` and capture-group count. -/
def genericPatterns : List (GRegex × List String × Nat) :=
  [ (rcats [.bol, .group 1 genericTsZone, rplus rsp, .group 2 rlevel,
      rplus rsp, .group 3 (rplus rdot), .eol],
      ["", "timestamp", "level", "message"], 3),
    (rcats [.bol, .group 1 rlevel, rplus rsp, .group 2 genericTsBase,
      rplus rsp, .group 3 (rplus rdot), .eol],
      ["", "level", "timestamp", "message"], 3),
    (rcats [.bol, ropt (.cat (.group 1 genericTsBase) (rplus rsp)),
      rchar '[', .group 2 rlevel, rchar ']', rplus rsp,
      .group 3 (rplus rdot), .eol],
      ["", "timestamp", "level", "message"], 3),
    (rcats [.bol, .group 1 rlevel,
      rplus (.cls (fun c => c == ':' || c == '-' || goPerlSpace c)),
      .group 2 (rplus rdot), .eol],
      ["", "level", "message"], 2) ]

/-- The `KeyValueParser` pattern:
`(\w+)=(?:"([^"]*)"|'([^']*)'|(\S+))` (unanchored). -/
def kvPattern : GRegex :=
  rcats [.group 1 (rplus rw), rchar '=',
    .alt (rcats [rchar '"', .group 2 (.star (.cls (fun c => c != '"'))), rchar '"'])
      (.alt (rcats [rchar sq, .group 3 (.star (.cls (fun c => c != sq))), rchar sq])
        (.group 4 (rplus rnotSp)))]

/-- JSON whitespace (RFC 8259, as accepted by `encoding/json`). -/
def jsonWs (c : Char) : Bool :=
  c == ' ' || c == '\t' || c == '\n' || c == '\r'

/-- Skip JSON whitespace. -/
def jsonSkip (cs : List Char) : List Char := cs.dropWhile jsonWs

/-- Combine four hexadecimal digits of a `\uXXXX` escape. -/
def hex4 (a b c d : Char) : Option Nat := do
  let hv (x : Char) : Option Nat :=
    if x.isDigit then some (x.toNat - '0'.toNat)
    else if 'a' ≤ x && x ≤ 'f' then some (x.toNat - 'a'.toNat + 10)
    else if 'A' ≤ x && x ≤ 'F' then some (x.toNat - 'A'.toNat + 10)
    else none
  let va ← hv a; let vb ← hv b; let vc ← hv c; let vd ← hv d
  pure (((va * 16 + vb) * 16 + vc) * 16 + vd)

/-- Body of a JSON string after the opening quote: characters up to the
closing quote, with the escape sequences `encoding/json` accepts;
unescaped control characters are a syntax error.  A `\uXXXX` escape is
decoded to its code point when it is a valid scalar (surrogate handling
is reduced to the replacement behavior Go applies). -/
def jsonStringBody : List Char → Option (List Char × List Char)
  | [] => none
  | '"' :: rest => some ([], rest)
  | '\\' :: e :: rest =>
    match e with
    | '"' => (jsonStringBody rest).map fun r => ('"' :: r.1, r.2)
    | '\\' => (jsonStringBody rest).map fun r => ('\\' :: r.1, r.2)
    | '/' => (jsonStringBody rest).map fun r => ('/' :: r.1, r.2)
    | 'b' => (jsonStringBody rest).map fun r => ('\x08' :: r.1, r.2)
    | 'f' => (jsonStringBody rest).map fun r => ('\x0c' :: r.1, r.2)
    | 'n' => (jsonStringBody rest).map fun r => ('\n' :: r.1, r.2)
    | 'r' => (jsonStringBody rest).map fun r => ('\r' :: r.1, r.2)
    | 't' => (jsonStringBody rest).map fun r => ('\t' :: r.1, r.2)
    | 'u' =>
      match rest with
      | a :: b :: c :: d :: rest' =>
        match hex4 a b c d with
        | some n =>
          let ch := if n < 0xd800 || (0xe000 ≤ n && n < 0x110000)
            then Char.ofNat n else Char.ofNat 0xfffd
          (jsonStringBody rest').map fun r => (ch :: r.1, r.2)
        | none => none
      | _ => none
    | _ => none
  | c :: rest =>
    if c.toNat < 0x20 then none
    else (jsonStringBody rest).map fun r => (c :: r.1, r.2)

/-- Lexes a JSON number token (`-?(0|[1-9]\d*)(\.\d+)?([eE][+-]?\d+)?`)
from the head of the input; returns the token text and the rest. -/
def jsonNumberTok (cs : List Char) : Option (List Char × List Char) :=
  let ⟨sgn, afterSign⟩ :
      List Char × List Char :=
    match cs with
    | '-' :: t => (['-'], t)
    | t => ([], t)
  let intPart : Option (List Char × List Char) :=
    match afterSign with
    | '0' :: t => some (['0'], t)
    | c :: t =>
      if c.isDigit then
        let more := t.takeWhile Char.isDigit
        some (c :: more, t.dropWhile Char.isDigit)
      else none
    | [] => none
  match intPart with
  | none => none
  | some (ip, afterInt) =>
    let ⟨fp, afterFrac⟩ :
        List Char × List Char :=
      match afterInt with
      | '.' :: t =>
        let ds := t.takeWhile Char.isDigit
        if ds = [] then ([], afterInt) else ('.' :: ds, t.dropWhile Char.isDigit)
      | t => ([], t)
    if fp = [] && (match afterInt with | '.' :: _ => true | _ => false) then none
    else
      let ⟨ep, afterExp⟩ :
          List Char × List Char :=
        match afterFrac with
        | e :: t =>
          if e == 'e' || e == 'E' then
            let ⟨es, t2⟩ :
                List Char × List Char :=
              match t with
              | '+' :: t' => (['+'], t')
              | '-' :: t' => (['-'], t')
              | t' => ([], t')
            let ds := t2.takeWhile Char.isDigit
            if ds = [] then ([], afterFrac)
            else (e :: (es ++ ds), t2.dropWhile Char.isDigit)
          else ([], afterFrac)
        | [] => ([], afterFrac)
      if ep = [] && (match afterFrac with | e :: _ => e == 'e' || e == 'E' | _ => false)
      then none
      else some (sgn ++ ip ++ fp ++ ep, afterExp)

mutual

/-- Recursive-descent parser for a JSON value, modelling what
`encoding/json.Unmarshal` accepts when decoding into `any`: objects
become string-keyed maps with a duplicate key overwritten by the later
one, arrays become lists, numbers become `float64` (here: the token),
and the literals `true`/`false`/`null` their values.  The fuel only
bounds recursion depth; callers pass more than the input length. -/
def jsonParseVal : Nat → List Char → Option (GVal × List Char)
  | 0, _ => none
  | fuel + 1, cs =>
    match jsonSkip cs with
    | [] => none
    | '{' :: rest =>
      match jsonSkip rest with
      | '}' :: rest' => some (GVal.vObj [], rest')
      | cs' => (jsonParseMembers fuel cs' []).map fun r => (GVal.vObj r.1, r.2)
    | '[' :: rest =>
      match jsonSkip rest with
      | ']' :: rest' => some (GVal.vArr [], rest')
      | cs' => (jsonParseElems fuel cs' []).map fun r => (GVal.vArr r.1, r.2)
    | '"' :: rest =>
      (jsonStringBody rest).map fun r => (GVal.vStr (strOf r.1), r.2)
    | 't' :: 'r' :: 'u' :: 'e' :: rest => some (GVal.vBool true, rest)
    | 'f' :: 'a' :: 'l' :: 's' :: 'e' :: rest => some (GVal.vBool false, rest)
    | 'n' :: 'u' :: 'l' :: 'l' :: rest => some (GVal.vNull, rest)
    | cs' =>
      (jsonNumberTok cs').map fun r => (GVal.vFloat (strOf r.1), r.2)

/-- Members of a JSON object after the opening brace (first key
expected); accumulates with map-overwrite semantics. -/
def jsonParseMembers : Nat → List Char → List (String × GVal) →
    Option (List (String × GVal) × List Char)
  | 0, _, _ => none
  | fuel + 1, cs, acc =>
    match jsonSkip cs with
    | '"' :: rest =>
      match jsonStringBody rest with
      | none => none
      | some (key, afterKey) =>
        match jsonSkip afterKey with
        | ':' :: afterColon =>
          match jsonParseVal fuel afterColon with
          | none => none
          | some (v, afterVal) =>
            let acc' := insertF acc (strOf key) v
            match jsonSkip afterVal with
            | ',' :: rest' => jsonParseMembers fuel rest' acc'
            | '}' :: rest' => some (acc', rest')
            | _ => none
        | _ => none
    | _ => none

/-- Elements of a JSON array after the opening bracket (first element
expected). -/
def jsonParseElems : Nat → List Char → List GVal →
    Option (List GVal × List Char)
  | 0, _, _ => none
  | fuel + 1, cs, acc =>
    match jsonParseVal fuel cs with
    | none => none
    | some (v, afterVal) =>
      match jsonSkip afterVal with
      | ',' :: rest' => jsonParseElems fuel rest' (acc ++ [v])
      | ']' :: rest' => some (acc ++ [v], rest')
      | _ => none

end

/-- Go `json.Unmarshal([]byte(s), &m)` for `m : map[string]any`: the
whole input must be one valid JSON value followed only by whitespace,
and that value must be an object (anything else fails to decode into a
map).  Returns the decoded field map on success. -/
def jsonUnmarshalObj (s : String) : Option Fields :=
  let cs := s.toList
  match jsonParseVal (2 * cs.length + 2) cs with
  | some (GVal.vObj kvs, rest) => if jsonSkip rest = [] then some kvs else none
  | _ => none

/-- Go `strings.ToUpper` (ASCII). -/
def goToUpper (s : String) : String := strOf (s.toList.map Char.toUpper)

/-- A recognizer value: the method set `{Name, Description, CanParse,
Parse}` of the `Parser` interface.  `parse` returns the entry together
with the Go `error` result, modelled as an optional message. -/
structure GoParser where
  name : String
  description : String
  canParse : String → Bool
  parse : String → Entry × Option String

/-- `JSONParser.CanParse`: the trimmed line has length at least 2,
starts with an opening brace and ends with a closing brace. -/
def jsonCanParse (line : String) : Bool :=
  let t := (goTrimSpace line).toList
  decide (2 ≤ t.length) && t.head? == some '{' && t.getLast? == some '}'

/-- `JSONParser.Parse`: unmarshal the whole line into the fields map; on
decode failure record the error and inject `raw` and `_parseError`
fields.  (On failure Go may additionally leave partially decoded keys in
the map; that partial content is not modelled, and no claim depends on
it.) -/
def jsonParse (line : String) : Entry × Option String :=
  let entry := NewEntry line
  match jsonUnmarshalObj line with
  | some m => ({ entry with fields := m }, none)
  | none =>
    ({ entry with
        parseError := some PErr.errJSONDecode,
        fields := insertF (insertF entry.fields "raw" (GVal.vStr line))
          "_parseError" (GVal.vStr "json unmarshal error") }, none)

/-- Loop body of `SyslogParser.Parse`: skip the whole-match slot (its
name is empty) and empty captures; convert `pid` with `strconv.Atoi`,
keeping the raw string if conversion fails. -/
def syslogStep (fs : Fields) (nm : String × String) : Fields :=
  if nm.1 = "" || nm.2 = "" then fs
  else if nm.1 = "pid" then
    match goAtoi nm.2 with
    | some pid => insertF fs "pid" (GVal.vInt pid)
    | none => insertF fs nm.1 (GVal.vStr nm.2)
  else insertF fs nm.1 (GVal.vStr nm.2)

/-- `SyslogParser.Parse`. -/
def syslogParse (line : String) : Entry × Option String :=
  let entry := NewEntry line
  match gfind syslogPattern 5 line with
  | none =>
    ({ entry with
        parseError := some PErr.errNoMatch,
        fields := insertF entry.fields "raw" (GVal.vStr line) }, none)
  | some ms =>
    ({ entry with
        fields := (syslogNames.zip ms).foldl syslogStep entry.fields }, none)

/-- Loop body of `ApacheParser.Parse`: skip the whole-match slot, empty
captures and the `-` placeholder; convert `status` with `strconv.Atoi`
and `size` with `strconv.ParseInt(…, 10, 64)`, keeping the raw string if
a conversion fails. -/
def apacheStep (fs : Fields) (nm : String × String) : Fields :=
  if nm.1 = "" || nm.2 = "" || nm.2 = "-" then fs
  else if nm.1 = "status" then
    match goAtoi nm.2 with
    | some v => insertF fs "status" (GVal.vInt v)
    | none => insertF fs nm.1 (GVal.vStr nm.2)
  else if nm.1 = "size" then
    match goParseInt64 nm.2 with
    | some v => insertF fs "size" (GVal.vInt64 v)
    | none => insertF fs nm.1 (GVal.vStr nm.2)
  else insertF fs nm.1 (GVal.vStr nm.2)

/-- `ApacheParser.Parse`. -/
def apacheParse (line : String) : Entry × Option String :=
  let entry := NewEntry line
  match gfind apachePattern 11 line with
  | none =>
    ({ entry with
        parseError := some PErr.errNoMatch,
        fields := insertF entry.fields "raw" (GVal.vStr line) }, none)
  | some ms =>
    ({ entry with
        fields := (apacheNames.zip ms).foldl apacheStep entry.fields }, none)

/-- Loop body of `GenericParser.Parse`: skip the whole-match slot and
empty captures; normalize `level` to uppercase. -/
def genericStep (fs : Fields) (nm : String × String) : Fields :=
  if nm.1 = "" || nm.2 = "" then fs
  else if nm.1 = "level" then insertF fs "level" (GVal.vStr (goToUpper nm.2))
  else insertF fs nm.1 (GVal.vStr nm.2)

/-- First pattern of the generic list that matches the line, with its
capture slots and subexp names (the `for _, pattern := range p.patterns`
loop). -/
def genericFirst : List (GRegex × List String × Nat) → String →
    Option (List String × List String)
  | [], _ => none
  | (p, names, nc) :: rest, line =>
    match gfind p nc line with
    | some ms => some (names, ms)
    | none => genericFirst rest line

/-- `GenericParser.Parse`: empty-line short circuit, then the pattern
loop, then the wrap-as-message fallback. -/
def genericParse (line : String) : Entry × Option String :=
  let entry := NewEntry line
  let trimmed := goTrimSpace line
  if trimmed = "" then
    ({ entry with
        fields := insertF entry.fields "message" (GVal.vStr ""),
        parseError := some PErr.errEmptyLine }, none)
  else
    match genericFirst genericPatterns line with
    | some (names, ms) =>
      ({ entry with fields := (names.zip ms).foldl genericStep entry.fields }, none)
    | none =>
      ({ entry with
          fields := insertF entry.fields "message" (GVal.vStr trimmed) }, none)

/-- A compiled user-supplied pattern recognizer: the compiled pattern,
its `SubexpNames()`, the capture-group count and the original pattern
text. -/
structure RegexParser where
  pattern : GRegex
  names : List String
  ncap : Nat
  patternText : String

/-- The named-group validation of `NewRegexParser` (compilation itself
is represented by the `GRegex` value): at least one nonempty name. -/
def newRegexParserOk (rp : RegexParser) : Bool :=
  rp.names.any (fun n => n != "")

/-- Loop body of `RegexParser.Parse`: skip only the whole-match slot and
unnamed groups; every named group's capture is stored after type
inference (empty captures included — the source has no emptiness
check). -/
def regexStep (fs : Fields) (nm : String × String) : Fields :=
  if nm.1 = "" then fs else insertF fs nm.1 (inferType nm.2)

/-- `RegexParser.Parse`. -/
def regexParse (rp : RegexParser) (line : String) : Entry × Option String :=
  let entry := NewEntry line
  match gfind rp.pattern rp.ncap line with
  | none =>
    ({ entry with
        parseError := some PErr.errNoMatch,
        fields := insertF entry.fields "raw" (GVal.vStr line) }, none)
  | some ms =>
    ({ entry with
        fields := (rp.names.zip ms).foldl regexStep entry.fields }, none)

/-- Value selection of `KeyValueParser.Parse`: double-quoted, else
single-quoted, else the bare capture. -/
def kvPairValue (m : List String) : String :=
  if m.getD 2 "" != "" then m.getD 2 ""
  else if m.getD 3 "" != "" then m.getD 3 ""
  else m.getD 4 ""

/-- Loop body of `KeyValueParser.Parse`: store the selected value under
the key (slot 1) after type inference. -/
def kvStep (fs : Fields) (m : List String) : Fields :=
  insertF fs (m.getD 1 "") (inferType (kvPairValue m))

/-- `KeyValueParser.Parse`: every `key=value` match is stored under its
key after type inference (a repeated key is overwritten by the later
pair, since the fields map is a Go map). -/
def kvParse (line : String) : Entry × Option String :=
  let entry := NewEntry line
  let mss := gfindAll kvPattern 4 line
  if mss = [] then
    ({ entry with
        parseError := some PErr.errNoMatch,
        fields := insertF entry.fields "raw" (GVal.vStr line) }, none)
  else
    ({ entry with fields := mss.foldl kvStep entry.fields }, none)

/-- `KeyValueParser.CanParse`: at least two `key=value` matches. -/
def kvCanParse (line : String) : Bool :=
  decide (2 ≤ (gfindAll kvPattern 4 line).length)

/-- The five built-in recognizers as interface values. -/
def jsonGoParser : GoParser :=
  { name := "json", description := "JSON formatted logs (already structured)",
    canParse := jsonCanParse, parse := jsonParse }

def kvGoParser : GoParser :=
  { name := "kv", description := "Key=value format (logfmt style)",
    canParse := kvCanParse, parse := kvParse }

def syslogGoParser : GoParser :=
  { name := "syslog", description := "Standard syslog format (RFC 3164/5424)",
    canParse := fun line => gmatches syslogPattern 5 line, parse := syslogParse }

def apacheGoParser : GoParser :=
  { name := "apache", description := "Apache/Nginx Combined Log Format",
    canParse := fun line => gmatches apachePattern 11 line, parse := apacheParse }

def genericGoParser : GoParser :=
  { name := "generic", description := "Generic timestamp/level patterns (fallback)",
    canParse := fun _ => true, parse := genericParse }

/-- A user-supplied pattern recognizer as an interface value. -/
def regexGoParser (rp : RegexParser) : GoParser :=
  { name := "regex", description := "Custom regex pattern: " ++ rp.patternText,
    canParse := fun line => gmatches rp.pattern rp.ncap line,
    parse := regexParse rp }

/-- The `Registry` struct. -/
structure Registry where
  parsers : List GoParser
  cached : Option GoParser := none
  adaptive : Bool := false
  forcedFormat : String := ""

/-- `RegistryOption` and the two option constructors. -/
abbrev RegistryOption := Registry → Registry

def withAdaptiveMode : RegistryOption := fun r => { r with adaptive := true }

def withForcedFormat (format : String) : RegistryOption :=
  fun r => { r with forcedFormat := goToLower format }

/-- `Registry.Register`: append at the end of the priority list. -/
def registerP (r : Registry) (p : GoParser) : Registry :=
  { r with parsers := r.parsers ++ [p] }

/-- `NewRegistry`: apply the options, then register the built-ins in
priority order json, kv, syslog, apache, generic. -/
def newRegistry (opts : List RegistryOption) : Registry :=
  let r : Registry := { parsers := [] }
  let r := opts.foldl (fun r o => o r) r
  registerP (registerP (registerP (registerP (registerP r jsonGoParser)
    kvGoParser) syslogGoParser) apacheGoParser) genericGoParser

/-- `Registry.GetParser`: case-insensitive lookup by name, first match
in registration order. -/
def getParser (r : Registry) (name : String) : Option GoParser :=
  let lname := goToLower name
  r.parsers.find? (fun p => goToLower p.name == lname)

/-- The auto-detection loop of `Registry.Parse`: first parser whose
`CanParse` accepts the line and whose `Parse` returns no error and no
`ParseError`, together with its entry. -/
def detectLoop (line : String) : List GoParser → Option (Entry × GoParser)
  | [] => none
  | p :: rest =>
    if p.canParse line then
      let pr := p.parse line
      if pr.2.isNone && pr.1.parseError.isNone then some (pr.1, p)
      else detectLoop line rest
    else detectLoop line rest

/-- Auto-detection tail of `Registry.Parse` (the part after the cached
branch): run the loop, cache the winner in strict mode, else fall back
to the generic parser, else wrap the raw line with a no-match error. -/
def registryAutoDetect (r : Registry) (line : String) :
    (Option Entry × Option String) × Registry :=
  match detectLoop line r.parsers with
  | some (e, p) =>
    let r' := if !r.adaptive && r.cached.isNone then { r with cached := some p }
      else r
    ((some e, none), r')
  | none =>
    match getParser r "generic" with
    | some g =>
      let pr := g.parse line
      ((some pr.1, pr.2), r)
    | none =>
      ((some { NewEntry line with
          fields := insertF [] "raw" (GVal.vStr line),
          parseError := some PErr.errNoMatch }, none), r)

/-- `Registry.Parse`: empty-line short circuit, forced format, cached
parser in strict mode, then auto-detection.  The result pairs the Go
`(*Entry, error)` return with the registry state after the call (the Go
method mutates `r.cached` in place). -/
def registryParse (r : Registry) (line : String) :
    (Option Entry × Option String) × Registry :=
  if goTrimSpace line = "" then
    ((some { NewEntry line with parseError := some PErr.errEmptyLine }, none), r)
  else if r.forcedFormat ≠ "" then
    match getParser r r.forcedFormat with
    | none => ((none, some ("unknown format: " ++ r.forcedFormat)), r)
    | some p =>
      let pr := p.parse line
      ((some pr.1, pr.2), r)
  else
    match r.adaptive, r.cached with
    | false, some cachedP =>
      let pr := cachedP.parse line
      ((some pr.1, pr.2), r)
    | _, _ => registryAutoDetect r line

/-! Lemmas about the fields map and the extraction folds. -/

theorem lookupF_insertF_self (fs : Fields) (k : String) (v : GVal) :
    lookupF (insertF fs k v) k = some v := by
  induction fs with
  | nil => simp [insertF, lookupF]
  | cons p rest ih =>
    obtain ⟨k', v'⟩ := p
    by_cases h : k' = k
    · simp [insertF, lookupF, h]
    · simp [insertF, lookupF, h, ih]

theorem lookupF_insertF_ne (fs : Fields) (k k' : String) (v : GVal)
    (h : k' ≠ k) : lookupF (insertF fs k' v) k = lookupF fs k := by
  induction fs with
  | nil => simp [insertF, lookupF, h]
  | cons p rest ih =>
    obtain ⟨k'', v''⟩ := p
    by_cases h2 : k'' = k'
    · simp [insertF, lookupF, h2, h]
    · simp only [insertF, lookupF, h2, if_false]
      by_cases h3 : k'' = k <;> simp [h3, ih]

/-- Characterization of one lookup after a left fold of a step function
that, per element, either leaves the map unchanged (`valOf a = none`) or
inserts `valOf a` at key `keyOf a`: the result at `k` is given by the
last element whose key is `k` and which inserts, else by the initial
map. -/
theorem lookupF_foldl_step {α : Type} (step : Fields → α → Fields)
    (keyOf : α → String) (valOf : α → Option GVal)
    (hstep : ∀ fs a, step fs a = match valOf a with
      | none => fs
      | some v => insertF fs (keyOf a) v)
    (ps : List α) (fs : Fields) (k : String) :
    lookupF (ps.foldl step fs) k =
      (((ps.reverse.find? (fun a => keyOf a == k && (valOf a).isSome)).map
        valOf).getD (lookupF fs k)) := by
  induction ps generalizing fs with
  | nil => simp
  | cons a rest ih =>
    rw [List.foldl_cons, ih (step fs a), List.reverse_cons, List.find?_append]
    cases hf : rest.reverse.find? (fun a => keyOf a == k && (valOf a).isSome) with
    | some b => simp [hf]
    | none =>
      simp only [Option.none_or, Option.map_none', Option.getD_none]
      rw [hstep fs a]
      cases hv : valOf a with
      | none => simp [List.find?, hv]
      | some v =>
        by_cases hk : keyOf a = k
        · subst hk
          simp [List.find?, hv, lookupF_insertF_self, hv]
        · have hkb : (keyOf a == k) = false := beq_eq_false_iff_ne.mpr hk
          simp [List.find?, hv, hkb, lookupF_insertF_ne _ _ _ _ hk]

/-- The per-pair effect of `syslogStep`, as an optional inserted
value. -/
def syslogValOf (nm : String × String) : Option GVal :=
  if nm.1 = "" || nm.2 = "" then none
  else if nm.1 = "pid" then
    some (match goAtoi nm.2 with
      | some n => GVal.vInt n
      | none => GVal.vStr nm.2)
  else some (GVal.vStr nm.2)

theorem syslogStep_spec (fs : Fields) (nm : String × String) :
    syslogStep fs nm = match syslogValOf nm with
      | none => fs
      | some v => insertF fs nm.1 v := by
  simp only [syslogStep, syslogValOf]
  split
  · rfl
  next hcond =>
    by_cases hpid : nm.1 = "pid"
    · cases hA : goAtoi nm.2 <;> simp [hpid, hA]
    · simp [hpid]

theorem lookupF_syslogFold (ps : List (String × String)) (fs : Fields)
    (k : String) :
    lookupF (ps.foldl syslogStep fs) k =
      (((ps.reverse.find? (fun nm => nm.1 == k && (syslogValOf nm).isSome)).map
        syslogValOf).getD (lookupF fs k)) :=
  lookupF_foldl_step syslogStep Prod.fst syslogValOf syslogStep_spec ps fs k

/-- The per-pair effect of `apacheStep`. -/
def apacheValOf (nm : String × String) : Option GVal :=
  if nm.1 = "" || nm.2 = "" || nm.2 = "-" then none
  else if nm.1 = "status" then
    some (match goAtoi nm.2 with
      | some n => GVal.vInt n
      | none => GVal.vStr nm.2)
  else if nm.1 = "size" then
    some (match goParseInt64 nm.2 with
      | some n => GVal.vInt64 n
      | none => GVal.vStr nm.2)
  else some (GVal.vStr nm.2)

theorem apacheStep_spec (fs : Fields) (nm : String × String) :
    apacheStep fs nm = match apacheValOf nm with
      | none => fs
      | some v => insertF fs nm.1 v := by
  simp only [apacheStep, apacheValOf]
  split
  · rfl
  next hcond =>
    by_cases hst : nm.1 = "status"
    · cases hA : goAtoi nm.2 <;> simp [hst, hA]
    · by_cases hsz : nm.1 = "size"
      · cases hP : goParseInt64 nm.2 <;> simp [hst, hsz, hP]
      · simp [hst, hsz]

theorem lookupF_apacheFold (ps : List (String × String)) (fs : Fields)
    (k : String) :
    lookupF (ps.foldl apacheStep fs) k =
      (((ps.reverse.find? (fun nm => nm.1 == k && (apacheValOf nm).isSome)).map
        apacheValOf).getD (lookupF fs k)) :=
  lookupF_foldl_step apacheStep Prod.fst apacheValOf apacheStep_spec ps fs k

/-- The per-pair effect of `regexStep`: every named group inserts its
type-inferred capture, empty captures included. -/
def regexValOf (nm : String × String) : Option GVal :=
  if nm.1 = "" then none else some (inferType nm.2)

theorem regexStep_spec (fs : Fields) (nm : String × String) :
    regexStep fs nm = match regexValOf nm with
      | none => fs
      | some v => insertF fs nm.1 v := by
  simp only [regexStep, regexValOf]
  split <;> simp

theorem lookupF_regexFold (ps : List (String × String)) (fs : Fields)
    (k : String) :
    lookupF (ps.foldl regexStep fs) k =
      (((ps.reverse.find? (fun nm => nm.1 == k && (regexValOf nm).isSome)).map
        regexValOf).getD (lookupF fs k)) :=
  lookupF_foldl_step regexStep Prod.fst regexValOf regexStep_spec ps fs k

theorem kvStep_spec (fs : Fields) (m : List String) :
    kvStep fs m = match some (inferType (kvPairValue m)) with
      | none => fs
      | some v => insertF fs (m.getD 1 "") v := rfl

theorem lookupF_kvFold (ps : List (List String)) (fs : Fields) (k : String) :
    lookupF (ps.foldl kvStep fs) k =
      (((ps.reverse.find? (fun m => m.getD 1 "" == k)).map
        (fun m => some (inferType (kvPairValue m)))).getD (lookupF fs k)) := by
  have h := lookupF_foldl_step kvStep (fun m => m.getD 1 "")
    (fun m => some (inferType (kvPairValue m))) kvStep_spec ps fs k
  simpa using h

/-! Claim theorems. -/

/-- C6: for every syslog line matched by the syslog recognizer (the
match hypothesis names the six capture slots of `FindStringSubmatch`),
each captured group with non-empty text becomes a field under its group
name; when the `pid` capture is empty (the line lacks a `[pid]` suffix,
since that optional group is the only way `pid` participates) the `pid`
field is absent entirely; when `pid` is present it is converted to an
integer, falling back to the raw string only if integer conversion
fails. -/
theorem c6_syslog_extract (line w m1 m2 m3 m4 m5 : String)
    (hfind : gfind syslogPattern 5 line = some [w, m1, m2, m3, m4, m5]) :
    ((syslogParse line).1).parseError = none ∧
    (m4 = "" → lookupF ((syslogParse line).1).fields "pid" = none) ∧
    (∀ n, goAtoi m4 = some n →
      lookupF ((syslogParse line).1).fields "pid" = some (GVal.vInt n)) ∧
    (m4 ≠ "" → goAtoi m4 = none →
      lookupF ((syslogParse line).1).fields "pid" = some (GVal.vStr m4)) ∧
    (m1 ≠ "" →
      lookupF ((syslogParse line).1).fields "timestamp" = some (GVal.vStr m1)) ∧
    (m2 ≠ "" →
      lookupF ((syslogParse line).1).fields "host" = some (GVal.vStr m2)) ∧
    (m3 ≠ "" →
      lookupF ((syslogParse line).1).fields "program" = some (GVal.vStr m3)) ∧
    (m5 ≠ "" →
      lookupF ((syslogParse line).1).fields "message" = some (GVal.vStr m5)) := by
  have hfe : ((syslogParse line).1).fields =
      ([("", w), ("timestamp", m1), ("host", m2), ("program", m3),
        ("pid", m4), ("message", m5)] : List (String × String)).foldl
        syslogStep [] := by
    simp [syslogParse, hfind, syslogNames, NewEntry]
  have hpe : ((syslogParse line).1).parseError = none := by
    simp [syslogParse, hfind, NewEntry]
  refine ⟨hpe, ?_, ?_, ?_, ?_, ?_, ?_, ?_⟩
  · intro h4
    subst h4
    rw [hfe, lookupF_syslogFold]
    simp [List.find?, syslogValOf, lookupF]
  · intro n hA
    have hm4 : m4 ≠ "" := by
      intro he
      rw [he, (show goAtoi "" = none from rfl)] at hA
      exact Option.noConfusion hA
    rw [hfe, lookupF_syslogFold]
    simp [List.find?, syslogValOf, hm4, hA]
  · intro hm4 hA
    rw [hfe, lookupF_syslogFold]
    simp [List.find?, syslogValOf, hm4, hA]
  · intro h1
    rw [hfe, lookupF_syslogFold]
    simp [List.find?, syslogValOf, h1]
  · intro h2
    rw [hfe, lookupF_syslogFold]
    simp [List.find?, syslogValOf, h2]
  · intro h3
    rw [hfe, lookupF_syslogFold]
    simp [List.find?, syslogValOf, h3]
  · intro h5
    rw [hfe, lookupF_syslogFold]
    simp [List.find?, syslogValOf, h5]

/-- C6, witness: the two syslog test lines, one with a pid and one
without. -/
theorem c6_syslog_extract_witness :
    lookupF ((syslogParse
        "Jan 15 10:30:45 myhost sshd[1234]: Accepted password for user").1).fields
      "pid" = some (GVal.vInt 1234) ∧
    lookupF ((syslogParse
        "Jan 15 10:30:45 myhost kernel: some kernel message").1).fields
      "pid" = none ∧
    lookupF ((syslogParse
        "Jan 15 10:30:45 myhost kernel: some kernel message").1).fields
      "host" = some (GVal.vStr "myhost") := by
  refine ⟨?_, ?_, ?_⟩
  · exact (c6_syslog_extract
      "Jan 15 10:30:45 myhost sshd[1234]: Accepted password for user"
      "Jan 15 10:30:45 myhost sshd[1234]: Accepted password for user"
      "Jan 15 10:30:45" "myhost" "sshd" "1234" "Accepted password for user"
      (by rfl)).2.2.1 1234 (by rfl)
  · exact (c6_syslog_extract
      "Jan 15 10:30:45 myhost kernel: some kernel message"
      "Jan 15 10:30:45 myhost kernel: some kernel message"
      "Jan 15 10:30:45" "myhost" "kernel" "" "some kernel message"
      (by rfl)).2.1 (by rfl)
  · exact (c6_syslog_extract
      "Jan 15 10:30:45 myhost kernel: some kernel message"
      "Jan 15 10:30:45 myhost kernel: some kernel message"
      "Jan 15 10:30:45" "myhost" "kernel" "" "some kernel message"
      (by rfl)).2.2.2.2.2.1 (by decide)

/-- C5 (amended): for every line matched by the Apache-combined pattern
(the twelve capture slots of `FindStringSubmatch` named), every captured
group whose text is empty or exactly `-` is absent from the field map;
`status` is emitted as a plain integer whenever `strconv.Atoi` succeeds
on its digits (always the case for realistic status codes) and `size` as
a 64-bit integer whenever `strconv.ParseInt(…, 10, 64)` succeeds on its
capture; a capture on which the conversion fails is kept as its raw
string. -/
theorem c5_apache_extract
    (line w m1 m2 m3 m4 m5 m6 m7 m8 m9 m10 m11 : String)
    (hfind : gfind apachePattern 11 line =
      some [w, m1, m2, m3, m4, m5, m6, m7, m8, m9, m10, m11]) :
    ((apacheParse line).1).parseError = none ∧
    (∀ n, goAtoi m8 = some n →
      lookupF ((apacheParse line).1).fields "status" = some (GVal.vInt n)) ∧
    (m8 ≠ "" → m8 ≠ "-" → goAtoi m8 = none →
      lookupF ((apacheParse line).1).fields "status" = some (GVal.vStr m8)) ∧
    (∀ n, goParseInt64 m9 = some n →
      lookupF ((apacheParse line).1).fields "size" = some (GVal.vInt64 n)) ∧
    (m9 ≠ "" → m9 ≠ "-" → goParseInt64 m9 = none →
      lookupF ((apacheParse line).1).fields "size" = some (GVal.vStr m9)) ∧
    ((m1 = "" ∨ m1 = "-") → lookupF ((apacheParse line).1).fields "ip" = none) ∧
    ((m2 = "" ∨ m2 = "-") → lookupF ((apacheParse line).1).fields "ident" = none) ∧
    ((m3 = "" ∨ m3 = "-") → lookupF ((apacheParse line).1).fields "user" = none) ∧
    ((m4 = "" ∨ m4 = "-") →
      lookupF ((apacheParse line).1).fields "timestamp" = none) ∧
    ((m5 = "" ∨ m5 = "-") → lookupF ((apacheParse line).1).fields "method" = none) ∧
    ((m6 = "" ∨ m6 = "-") → lookupF ((apacheParse line).1).fields "path" = none) ∧
    ((m7 = "" ∨ m7 = "-") →
      lookupF ((apacheParse line).1).fields "protocol" = none) ∧
    ((m8 = "" ∨ m8 = "-") → lookupF ((apacheParse line).1).fields "status" = none) ∧
    ((m9 = "" ∨ m9 = "-") → lookupF ((apacheParse line).1).fields "size" = none) ∧
    ((m10 = "" ∨ m10 = "-") →
      lookupF ((apacheParse line).1).fields "referer" = none) ∧
    ((m11 = "" ∨ m11 = "-") →
      lookupF ((apacheParse line).1).fields "useragent" = none) := by
  have hfe : ((apacheParse line).1).fields =
      ([("", w), ("ip", m1), ("ident", m2), ("user", m3), ("timestamp", m4),
        ("method", m5), ("path", m6), ("protocol", m7), ("status", m8),
        ("size", m9), ("referer", m10), ("useragent", m11)] :
        List (String × String)).foldl apacheStep [] := by
    simp [apacheParse, hfind, apacheNames, NewEntry]
  have hpe : ((apacheParse line).1).parseError = none := by
    simp [apacheParse, hfind, NewEntry]
  refine ⟨hpe, ?_, ?_, ?_, ?_, ?_, ?_, ?_, ?_, ?_, ?_, ?_, ?_, ?_, ?_, ?_⟩
  · intro n hA
    have he : m8 ≠ "" := by
      intro h; rw [h, (show goAtoi "" = none from rfl)] at hA
      exact Option.noConfusion hA
    have hd : m8 ≠ "-" := by
      intro h; rw [h, (show goAtoi "-" = none from rfl)] at hA
      exact Option.noConfusion hA
    rw [hfe, lookupF_apacheFold]
    simp [List.find?, apacheValOf, he, hd, hA]
  · intro he hd hA
    rw [hfe, lookupF_apacheFold]
    simp [List.find?, apacheValOf, he, hd, hA]
  · intro n hP
    have he : m9 ≠ "" := by
      intro h; rw [h, (show goParseInt64 "" = none from rfl)] at hP
      exact Option.noConfusion hP
    have hd : m9 ≠ "-" := by
      intro h; rw [h, (show goParseInt64 "-" = none from rfl)] at hP
      exact Option.noConfusion hP
    rw [hfe, lookupF_apacheFold]
    simp [List.find?, apacheValOf, he, hd, hP]
  · intro he hd hP
    rw [hfe, lookupF_apacheFold]
    simp [List.find?, apacheValOf, he, hd, hP]
  all_goals
    intro h
    rw [hfe, lookupF_apacheFold]
    rcases h with h | h <;> subst h <;> simp [List.find?, apacheValOf, lookupF]

/-- C5, counterexample to the claim as stated: this line is matched by
the Apache pattern — well-formed in the only sense the code defines —
yet its 20-digit status overflows Go's `int`, `strconv.Atoi` fails, and
the recognizer stores `status` as a string, not an integer. -/
theorem c5_counterexample :
    (gfind apachePattern 11
      "1.2.3.4 - u [t] \"GET / HTTP/1.1\" 99999999999999999999 7").isSome
      = true ∧
    lookupF ((apacheParse
      "1.2.3.4 - u [t] \"GET / HTTP/1.1\" 99999999999999999999 7").1).fields
      "status" = some (GVal.vStr "99999999999999999999") ∧
    ((apacheParse
      "1.2.3.4 - u [t] \"GET / HTTP/1.1\" 99999999999999999999 7").1).parseError
      = none :=
  ⟨rfl, rfl, rfl⟩

/-- C5, witness: the full combined test line (status 200, size 1234,
everything present) and the dash-user test line (`ident` and `user`
absent). -/
theorem c5_apache_extract_witness :
    lookupF ((apacheParse ("192.168.1.1 - admin [15/Jan/2024:10:30:45 +0000] "
        ++ "\"GET /page HTTP/1.1\" 200 1234 \"http://ref.com\" \"Mozilla/5.0\"")).1).fields
      "status" = some (GVal.vInt 200) ∧
    lookupF ((apacheParse ("192.168.1.1 - admin [15/Jan/2024:10:30:45 +0000] "
        ++ "\"GET /page HTTP/1.1\" 200 1234 \"http://ref.com\" \"Mozilla/5.0\"")).1).fields
      "size" = some (GVal.vInt64 1234) ∧
    lookupF ((apacheParse ("10.0.0.1 - - [15/Jan/2024:10:30:45 +0000] "
        ++ "\"POST /api HTTP/1.1\" 201 56 \"http://example.com\" \"curl/7.68\"")).1).fields
      "user" = none ∧
    lookupF ((apacheParse ("10.0.0.1 - - [15/Jan/2024:10:30:45 +0000] "
        ++ "\"POST /api HTTP/1.1\" 201 56 \"http://example.com\" \"curl/7.68\"")).1).fields
      "ident" = none := by
  refine ⟨?_, ?_, ?_, ?_⟩
  · exact (c5_apache_extract
      ("192.168.1.1 - admin [15/Jan/2024:10:30:45 +0000] "
        ++ "\"GET /page HTTP/1.1\" 200 1234 \"http://ref.com\" \"Mozilla/5.0\"")
      ("192.168.1.1 - admin [15/Jan/2024:10:30:45 +0000] "
        ++ "\"GET /page HTTP/1.1\" 200 1234 \"http://ref.com\" \"Mozilla/5.0\"")
      "192.168.1.1" "-" "admin" "15/Jan/2024:10:30:45 +0000" "GET" "/page"
      "HTTP/1.1" "200" "1234" "http://ref.com" "Mozilla/5.0"
      (by rfl)).2.1 200 (by rfl)
  · exact (c5_apache_extract
      ("192.168.1.1 - admin [15/Jan/2024:10:30:45 +0000] "
        ++ "\"GET /page HTTP/1.1\" 200 1234 \"http://ref.com\" \"Mozilla/5.0\"")
      ("192.168.1.1 - admin [15/Jan/2024:10:30:45 +0000] "
        ++ "\"GET /page HTTP/1.1\" 200 1234 \"http://ref.com\" \"Mozilla/5.0\"")
      "192.168.1.1" "-" "admin" "15/Jan/2024:10:30:45 +0000" "GET" "/page"
      "HTTP/1.1" "200" "1234" "http://ref.com" "Mozilla/5.0"
      (by rfl)).2.2.2.1 1234 (by rfl)
  · exact (c5_apache_extract
      ("10.0.0.1 - - [15/Jan/2024:10:30:45 +0000] "
        ++ "\"POST /api HTTP/1.1\" 201 56 \"http://example.com\" \"curl/7.68\"")
      ("10.0.0.1 - - [15/Jan/2024:10:30:45 +0000] "
        ++ "\"POST /api HTTP/1.1\" 201 56 \"http://example.com\" \"curl/7.68\"")
      "10.0.0.1" "-" "-" "15/Jan/2024:10:30:45 +0000" "POST" "/api"
      "HTTP/1.1" "201" "56" "http://example.com" "curl/7.68"
      (by rfl)).2.2.2.2.2.2.2.1 (Or.inr rfl)
  · exact (c5_apache_extract
      ("10.0.0.1 - - [15/Jan/2024:10:30:45 +0000] "
        ++ "\"POST /api HTTP/1.1\" 201 56 \"http://example.com\" \"curl/7.68\"")
      ("10.0.0.1 - - [15/Jan/2024:10:30:45 +0000] "
        ++ "\"POST /api HTTP/1.1\" 201 56 \"http://example.com\" \"curl/7.68\"")
      "10.0.0.1" "-" "-" "15/Jan/2024:10:30:45 +0000" "POST" "/api"
      "HTTP/1.1" "201" "56" "http://example.com" "curl/7.68"
      (by rfl)).2.2.2.2.2.2.1 (Or.inr rfl)

/-- A small user-supplied pattern, `(?P<a>x)(?P<b>y?)`, whose second
named group can capture the empty string; it passes the `NewRegexParser`
named-group validation. -/
def samplePatternAB : RegexParser :=
  { pattern := rcats [.group 1 (rchar 'x'), .group 2 (ropt (rchar 'y'))],
    names := ["", "a", "b"], ncap := 2,
    patternText := "(?P<a>x)(?P<b>y?)" }

/-- C7, counterexample to the claim as stated: on the line `x` the
pattern `(?P<a>x)(?P<b>y?)` matches with group `b` capturing the empty
string, and the recognizer DOES store a field `b` (with the inferred
value of the empty string, i.e. the empty string) — the source loop has
no emptiness check, so empty captures become fields, contrary to the
claim. -/
theorem c7_counterexample :
    newRegexParserOk samplePatternAB = true ∧
    gfind samplePatternAB.pattern samplePatternAB.ncap "x" =
      some ["x", "x", ""] ∧
    lookupF ((regexParse samplePatternAB "x").1).fields "b" =
      some (GVal.vStr "") :=
  ⟨rfl, rfl, rfl⟩

/-- C7 (amended): for every line matched by a user-supplied Pattern
recognizer, Extract produces one field per matched named capture group —
including groups whose capture is empty — and every value is passed
through Type Inference; when several groups share a name, the last one
wins (Go map semantics).  The lookup of any nonempty name equals the
type-inferred capture of the last group with that name. -/
theorem c7_regex_extract (rp : RegexParser) (line : String)
    (ms : List String)
    (hfind : gfind rp.pattern rp.ncap line = some ms) :
    ((regexParse rp line).1).parseError = none ∧
    ∀ k, k ≠ "" →
      lookupF ((regexParse rp line).1).fields k =
        (((rp.names.zip ms).reverse.find? (fun nm => nm.1 == k)).map
          (fun nm => inferType nm.2)) := by
  constructor
  · simp [regexParse, hfind, NewEntry]
  · intro k hk
    have hfe : ((regexParse rp line).1).fields =
        (rp.names.zip ms).foldl regexStep [] := by
      simp [regexParse, hfind, NewEntry]
    rw [hfe, lookupF_regexFold]
    have hpred : (fun nm : String × String =>
        nm.1 == k && (regexValOf nm).isSome) = (fun nm => nm.1 == k) := by
      funext nm
      by_cases h1 : nm.1 = k
      · subst h1
        simp [regexValOf, hk]
      · simp [beq_eq_false_iff_ne.mpr h1]
    rw [hpred]
    cases hf : (rp.names.zip ms).reverse.find? (fun nm => nm.1 == k) with
    | none => simp [lookupF]
    | some nm =>
      have hp := List.find?_some hf
      have h1 : nm.1 = k := by simpa [beq_iff_eq] using hp
      simp [regexValOf, h1, hk]

/-- C7, witness: the amended extraction theorem at the sample pattern on
line `x`: group `a` gets `x` and group `b` gets the type-inferred empty
capture (the empty string). -/
theorem c7_regex_extract_witness :
    lookupF ((regexParse samplePatternAB "x").1).fields "a" =
      some (GVal.vStr "x") ∧
    lookupF ((regexParse samplePatternAB "x").1).fields "b" =
      some (GVal.vStr "") := by
  have h := c7_regex_extract samplePatternAB "x" ["x", "x", ""] (by rfl)
  exact ⟨(h.2 "a" (by decide)).trans (by rfl), (h.2 "b" (by decide)).trans (by rfl)⟩

/-- C10: when a line contains two or more `key=value` pairs sharing a
key, the KeyValue recognizer stores the type-inferred value of the last
(rightmost) such pair — formally, the lookup of any key equals the
inferred value of the last match-list entry with that key (first in the
reversed match list), keys staying unique by map semantics. -/
theorem c10_kv_last_wins (line : String) (k : String) (m : List String)
    (hne : gfindAll kvPattern 4 line ≠ [])
    (hlast : (gfindAll kvPattern 4 line).reverse.find?
      (fun mm => mm.getD 1 "" == k) = some m) :
    lookupF ((kvParse line).1).fields k = some (inferType (kvPairValue m)) := by
  have hfe : ((kvParse line).1).fields =
      (gfindAll kvPattern 4 line).foldl kvStep [] := by
    simp [kvParse, hne, NewEntry]
  rw [hfe, lookupF_kvFold, hlast]
  rfl

/-- C10, witness: on `a=1 b=2 a=3` the key `a` holds the inferred value
of the last pair, the integer 3. -/
theorem c10_kv_last_wins_witness :
    lookupF ((kvParse "a=1 b=2 a=3").1).fields "a" =
      some (GVal.vInt64 3) ∧
    lookupF ((kvParse "a=1 b=2 a=3").1).fields "b" =
      some (GVal.vInt64 2) := by
  constructor
  · exact (c10_kv_last_wins "a=1 b=2 a=3" "a" ["a=3", "a", "", "", "3"]
      (by decide) (by rfl)).trans (by rfl)
  · exact (c10_kv_last_wins "a=1 b=2 a=3" "b" ["b=2", "b", "", "", "2"]
      (by decide) (by rfl)).trans (by rfl)

/-- C8: for every non-empty (after trimming) line that matches none of
the four generic heuristics, the Generic recognizer returns the whole
trimmed line as the single `message` field with no failure; and the
Generic recognizer never reports a no-match failure on any input. -/
theorem c8_generic_fallback :
    (∀ line, goTrimSpace line ≠ "" →
      genericFirst genericPatterns line = none →
      ((genericParse line).1).fields =
        [("message", GVal.vStr (goTrimSpace line))] ∧
      ((genericParse line).1).parseError = none) ∧
    (∀ line, ((genericParse line).1).parseError ≠ some PErr.errNoMatch) := by
  constructor
  · intro line h1 h2
    constructor <;> simp [genericParse, h1, h2, NewEntry, insertF]
  · intro line
    by_cases h : goTrimSpace line = ""
    · simp [genericParse, h]
    · cases hg : genericFirst genericPatterns line with
      | none => simp [genericParse, h, hg, NewEntry]
      | some nmms => simp [genericParse, h, hg, NewEntry]

/-- C8, witness: a lowercase level token matches none of the four
patterns, so the whole line falls through to `message` with no
failure. -/
theorem c8_generic_fallback_witness :
    goTrimSpace "info this should fallback" ≠ "" ∧
    genericFirst genericPatterns "info this should fallback" = none ∧
    ((genericParse "info this should fallback").1).fields =
      [("message", GVal.vStr "info this should fallback")] ∧
    ((genericParse "info this should fallback").1).parseError = none := by
  refine ⟨by decide, by rfl, ?_⟩
  have h := c8_generic_fallback.1 "info this should fallback"
    (by decide) (by rfl)
  exact ⟨h.1.trans (by rfl), h.2⟩

/-- C2 (amended): for every input line that is empty or whitespace-only,
`Registry.Parse` returns — with a nil Go error and the registry state
unchanged, bypassing all recognizers — a Record whose `parseError` is the
empty-line failure and whose fields map is empty; in particular it
contains no `message` field (the empty `message` belongs to the Generic
recognizer's own empty-line branch, not to the registry short
circuit). -/
theorem c2_registry_empty_line (r : Registry) (line : String)
    (h : goTrimSpace line = "") :
    registryParse r line =
      ((some { fields := [], raw := line, lineNum := 0,
               parseError := some PErr.errEmptyLine }, none), r) := by
  simp [registryParse, h, NewEntry]

/-- C2, witness: the whitespace-only line. -/
theorem c2_registry_empty_line_witness :
    goTrimSpace "   " = "" ∧
    registryParse (newRegistry []) "   " =
      ((some { fields := [], raw := "   ", lineNum := 0,
               parseError := some PErr.errEmptyLine }, none), newRegistry []) :=
  ⟨rfl, c2_registry_empty_line (newRegistry []) "   " rfl⟩

/-- C2, counterexample to the claim as stated: at the empty line the
record carries the empty-line failure and a nil Go error, but its fields
map has NO `message` key at all, where the claim asserts a `message`
field equal to the empty string. -/
theorem c2_counterexample :
    ((registryParse (newRegistry []) "").1.1.map
      (fun e => lookupF e.fields "message")) = some none ∧
    ((registryParse (newRegistry []) "").1.1.map Entry.parseError) =
      some (some PErr.errEmptyLine) ∧
    (registryParse (newRegistry []) "").1.2 = none :=
  ⟨rfl, rfl, rfl⟩

/-- C3 (amended): when the forced format is set and not registered
(lookup is case-insensitive), `Registry.Parse` fails with the
unknown-format error for every input line that is not empty or
whitespace-only (a blank line is still short-circuited to the empty-line
record before the forced-format check). -/
theorem c3_unknown_forced (r : Registry) (line : String)
    (hblank : goTrimSpace line ≠ "") (hforced : r.forcedFormat ≠ "")
    (hget : getParser r r.forcedFormat = none) :
    registryParse r line =
      ((none, some ("unknown format: " ++ r.forcedFormat)), r) := by
  simp [registryParse, hblank, hforced, hget]

/-- C3, witness: forced format `bogus` on a non-blank line. -/
theorem c3_unknown_forced_witness :
    registryParse (newRegistry [withForcedFormat "bogus"]) "some log line" =
      ((none, some "unknown format: bogus"),
        newRegistry [withForcedFormat "bogus"]) := by
  exact c3_unknown_forced (newRegistry [withForcedFormat "bogus"])
    "some log line" (by decide) (by decide) (by rfl)

/-- C3, counterexample to the claim as stated: with the unregistered
forced format `bogus`, the empty line does NOT raise unknown-format —
the empty-line short circuit runs first and returns a record with a nil
Go error. -/
theorem c3_counterexample :
    (registryParse (newRegistry [withForcedFormat "bogus"]) "").1 =
      (some { fields := [], raw := "", lineNum := 0,
              parseError := some PErr.errEmptyLine }, none) :=
  rfl

/-- C9: every built-in recognizer's Parse (and the user-pattern
recognizer's) returns a nil Go error for every line and an entry whose
`raw` is the input line; consequently, for a registry whose recognizers
(and cached recognizer, if any) all return nil errors — as all of these
do — `Registry.Parse` returns a non-nil Go error only when a forced
format name is set and not registered. -/
theorem c9_nil_errors :
    (∀ line, (jsonParse line).2 = none ∧ ((jsonParse line).1).raw = line) ∧
    (∀ line, (kvParse line).2 = none ∧ ((kvParse line).1).raw = line) ∧
    (∀ line, (syslogParse line).2 = none ∧ ((syslogParse line).1).raw = line) ∧
    (∀ line, (apacheParse line).2 = none ∧ ((apacheParse line).1).raw = line) ∧
    (∀ line, (genericParse line).2 = none ∧ ((genericParse line).1).raw = line) ∧
    (∀ rp line, (regexParse rp line).2 = none ∧
      ((regexParse rp line).1).raw = line) ∧
    (∀ (r : Registry) (line : String),
      (∀ p ∈ r.parsers, ∀ l, (p.parse l).2 = none) →
      (∀ p, r.cached = some p → ∀ l, (p.parse l).2 = none) →
      ((registryParse r line).1).2 ≠ none →
      r.forcedFormat ≠ "" ∧ getParser r r.forcedFormat = none) := by
  refine ⟨?_, ?_, ?_, ?_, ?_, ?_, ?_⟩
  · intro line
    cases h : jsonUnmarshalObj line <;> simp [jsonParse, h, NewEntry]
  · intro line
    by_cases h : gfindAll kvPattern 4 line = [] <;> simp [kvParse, h, NewEntry]
  · intro line
    cases h : gfind syslogPattern 5 line <;> simp [syslogParse, h, NewEntry]
  · intro line
    cases h : gfind apachePattern 11 line <;> simp [apacheParse, h, NewEntry]
  · intro line
    by_cases h : goTrimSpace line = ""
    · simp [genericParse, h, NewEntry]
    · cases hg : genericFirst genericPatterns line <;>
        simp [genericParse, h, hg, NewEntry]
  · intro rp line
    cases h : gfind rp.pattern rp.ncap line <;> simp [regexParse, h, NewEntry]
  · intro r line hp hc herr
    by_cases hbl : goTrimSpace line = ""
    · simp [registryParse, hbl] at herr
    · by_cases hfmt : r.forcedFormat = ""
      · exfalso
        simp only [registryParse, if_neg hbl, hfmt, ne_eq,
          not_true_eq_false, if_false] at herr
        revert herr
        cases hadap : r.adaptive with
        | false =>
          cases hcach : r.cached with
          | some cp =>
            simp [hc cp hcach line]
          | none =>
            simp only [registryAutoDetect]
            cases hd : detectLoop line r.parsers with
            | some ep => simp
            | none =>
              simp only
              cases hg : getParser r "generic" with
              | some g =>
                have hmem := List.mem_of_find?_eq_some hg
                simp [hp g hmem line]
              | none => simp
        | true =>
          simp only [registryAutoDetect]
          cases hd : detectLoop line r.parsers with
          | some ep => simp
          | none =>
            simp only
            cases hg : getParser r "generic" with
            | some g =>
              have hmem := List.mem_of_find?_eq_some hg
              simp [hp g hmem line]
            | none => simp
      · refine ⟨hfmt, ?_⟩
        cases hg : getParser r r.forcedFormat with
        | none => rfl
        | some p =>
          exfalso
          have hmem := List.mem_of_find?_eq_some hg
          simp [registryParse, if_neg hbl, hfmt, hg, hp p hmem line] at herr

/-- C9, witness: the registry conjunct applied at the forced-unknown
configuration on a concrete line, its hypotheses discharged by the
recognizer conjuncts. -/
theorem c9_nil_errors_witness :
    (newRegistry [withForcedFormat "bogus"]).forcedFormat ≠ "" ∧
    getParser (newRegistry [withForcedFormat "bogus"])
      (newRegistry [withForcedFormat "bogus"]).forcedFormat = none := by
  have h := c9_nil_errors.2.2.2.2.2.2
    (newRegistry [withForcedFormat "bogus"]) "x"
  refine h ?_ ?_ ?_
  · intro p hmem l
    have h1 := (c9_nil_errors.1 l).1
    have h2 := (c9_nil_errors.2.1 l).1
    have h3 := (c9_nil_errors.2.2.1 l).1
    have h4 := (c9_nil_errors.2.2.2.1 l).1
    have h5 := (c9_nil_errors.2.2.2.2.1 l).1
    simp only [newRegistry, registerP, withForcedFormat, List.foldl_cons,
      List.foldl_nil, List.nil_append, List.append_assoc, List.cons_append,
      List.mem_append, List.mem_singleton, List.mem_cons,
      List.not_mem_nil, or_false, false_or] at hmem
    rcases hmem with rfl | rfl | rfl | rfl | rfl
    · exact h1
    · exact h2
    · exact h3
    · exact h4
    · exact h5
  · intro p hcach l
    have hnone : (none : Option GoParser) = some p := hcach
    exact Option.noConfusion hnone
  · decide

/-- The two lines of the caching scenario: a JSON object line, then a
syslog-shaped line. -/
def jsonLine1 : String := "\x7b\"a\":1\x7d"

def syslogLine1 : String := "Jan 15 10:30:45 myhost sshd[1234]: Accepted password"

/-- C1: registry strict-mode caching.  (i) With adaptive off, no forced
format and a cached recognizer, Parse delegates directly to the cached
recognizer (no Identify runs — the result is exactly that recognizer's
Parse) and leaves the state unchanged.  (ii) The detection loop accepts
precisely the first recognizer whose Identify claims the line and whose
Extract succeeds with no failure.  (iii) In strict mode with no cache
yet, a detection success caches the winning recognizer.  (iv) Concretely,
after a first JSON line the JSON recognizer is cached and a subsequent
syslog-shaped line is fed to it and reports a decode failure, state
unchanged.  (v) With adaptive mode on, nothing is cached and the same two
lines are recognized independently (JSON, then syslog, each with no
failure). -/
theorem c1_registry_caching :
    (∀ (r : Registry) (p : GoParser) (line : String),
      r.adaptive = false → r.forcedFormat = "" → r.cached = some p →
      goTrimSpace line ≠ "" →
      registryParse r line = ((some (p.parse line).1, (p.parse line).2), r)) ∧
    (∀ (line : String) (ps : List GoParser) (e : Entry) (p : GoParser),
      detectLoop line ps = some (e, p) →
      p ∈ ps ∧ p.canParse line = true ∧ (p.parse line).2 = none ∧
        ((p.parse line).1).parseError = none ∧ e = (p.parse line).1) ∧
    (∀ (r : Registry) (line : String) (e : Entry) (p : GoParser),
      r.adaptive = false → r.forcedFormat = "" → r.cached = none →
      goTrimSpace line ≠ "" → detectLoop line r.parsers = some (e, p) →
      registryParse r line = ((some e, none), { r with cached := some p })) ∧
    ((registryParse (newRegistry []) jsonLine1).2.cached = some jsonGoParser ∧
      ((registryParse (newRegistry []) jsonLine1).1.1.map Entry.parseError) =
        some none ∧
      ((registryParse ((registryParse (newRegistry []) jsonLine1).2)
          syslogLine1).1.1.map Entry.parseError) =
        some (some PErr.errJSONDecode) ∧
      (registryParse ((registryParse (newRegistry []) jsonLine1).2)
          syslogLine1).2 = (registryParse (newRegistry []) jsonLine1).2) ∧
    ((registryParse (newRegistry [withAdaptiveMode]) jsonLine1).1.1 =
        some (jsonParse jsonLine1).1 ∧
      ((jsonParse jsonLine1).1).parseError = none ∧
      (registryParse (newRegistry [withAdaptiveMode]) jsonLine1).2.cached =
        none ∧
      (registryParse ((registryParse (newRegistry [withAdaptiveMode])
          jsonLine1).2) syslogLine1).1.1 = some (syslogParse syslogLine1).1 ∧
      ((syslogParse syslogLine1).1).parseError = none ∧
      (registryParse ((registryParse (newRegistry [withAdaptiveMode])
          jsonLine1).2) syslogLine1).2.cached = none) := by
  refine ⟨?_, ?_, ?_, ⟨rfl, rfl, rfl, rfl⟩, ⟨rfl, rfl, rfl, rfl, rfl, rfl⟩⟩
  · intro r p line hadap hfmt hcach hne
    simp [registryParse, hne, hfmt, hadap, hcach]
  · intro line ps
    induction ps with
    | nil => intro e p h; exact Option.noConfusion h
    | cons p' rest ih =>
      intro e p h
      by_cases hcp : p'.canParse line = true
      · rw [detectLoop, if_pos hcp] at h
        by_cases hok : ((p'.parse line).2.isNone &&
            ((p'.parse line).1).parseError.isNone) = true
        · rw [if_pos hok] at h
          obtain ⟨he, hp⟩ := Prod.mk.injEq _ _ _ _ ▸ Option.some.injEq _ _ ▸ h
          subst hp
          rcases Bool.and_eq_true_iff.mp hok with ⟨h2, h3⟩
          exact ⟨List.mem_cons_self _ _, hcp,
            Option.isNone_iff_eq_none.mp h2,
            Option.isNone_iff_eq_none.mp h3, he.symm⟩
        · rw [if_neg hok] at h
          obtain ⟨hmem, rest'⟩ := ih e p h
          exact ⟨List.mem_cons_of_mem _ hmem, rest'⟩
      · rw [detectLoop, if_neg hcp] at h
        obtain ⟨hmem, rest'⟩ := ih e p h
        exact ⟨List.mem_cons_of_mem _ hmem, rest'⟩
  · intro r line e p hadap hfmt hcach hne hdet
    simp [registryParse, registryAutoDetect, hne, hfmt, hadap, hcach, hdet]

/-- C1, witness: the delegation conjunct applied at the cached state
after the JSON line, the loop-characterization conjunct at the initial
detection, and the caching conjunct at the fresh strict registry. -/
theorem c1_registry_caching_witness :
    (registryParse ((registryParse (newRegistry []) jsonLine1).2) syslogLine1 =
      ((some (jsonParse syslogLine1).1, (jsonParse syslogLine1).2),
        (registryParse (newRegistry []) jsonLine1).2)) ∧
    (jsonGoParser ∈ (newRegistry []).parsers ∧
      jsonGoParser.canParse jsonLine1 = true ∧
      (jsonGoParser.parse jsonLine1).2 = none ∧
      ((jsonGoParser.parse jsonLine1).1).parseError = none ∧
      (jsonParse jsonLine1).1 = (jsonGoParser.parse jsonLine1).1) ∧
    (registryParse (newRegistry []) jsonLine1 =
      ((some (jsonParse jsonLine1).1, none),
        { newRegistry [] with cached := some jsonGoParser })) := by
  refine ⟨?_, ?_, ?_⟩
  · exact c1_registry_caching.1 ((registryParse (newRegistry []) jsonLine1).2)
      jsonGoParser syslogLine1 (by rfl) (by rfl) (by rfl) (by decide)
  · exact c1_registry_caching.2.1 jsonLine1 (newRegistry []).parsers
      (jsonParse jsonLine1).1 jsonGoParser (by rfl)
  · exact c1_registry_caching.2.2.1 (newRegistry []) jsonLine1
      (jsonParse jsonLine1).1 jsonGoParser (by rfl) (by rfl) (by rfl)
      (by decide) (by rfl)

end Log2Json
